import Mathlib

/-!
# Grundy Groceries — verification of the payout-split and order-tracking core

Shallow embedding of the repository's core services:

* `src/services/vendorPayoutService.ts` — `calculateOrderSplit`,
  `generateSubaccountsForSplit`;
* `src/services/orderTrackingService.ts` — the in-memory order store
  (`createOrder`, `updateOrderPaymentStatus`, `updateOrderDeliveryStatus`,
  `completeOrderDelivery`, `getOrderByReference`, `getAllOrders`);
* `src/app/api/webhooks/paystack/route.ts` — the order-resolution part of
  `handleChargeSuccess`.

Modelling conventions:

* JavaScript numbers carrying money are embedded as `ℚ`. The source computes
  in binary64, which the `ℚ` model idealises; therefore (a) no theorem below
  asserts an exact equality of computed money amounts beyond what binary64
  also satisfies — conservation statements carry the spec's one-minor-unit
  tolerance, far above binary64's ~1e-13 deviation — and (b) every concrete
  counterexample input is chosen so that each intermediate value of the
  source's computation is a dyadic rational exactly representable in
  binary64 (amounts like 0.125·115 = 14.375), making the double trace and
  the `ℚ` trace agree step for step.
* `Math.round` is embedded as `⌊x + 1/2⌋` (round half toward +∞), which is
  its mathematical semantics.
* Wall-clock timestamps (`Date.now()`, `new Date().toISOString()`) are an
  explicit `now : ℕ` parameter.
* Optional / possibly-`undefined` fields are `Option`; a JS falsy-guarded
  field (`paymentData?.reference || ...`) is `none` when absent.
* The mutable module-level `orders` array is explicit state: each store
  operation takes and returns the order list; `orders.find` (first match)
  is `List.find?`, in-place mutation of the found record is `updateFirst`.
-/

namespace Grundy

/-- `Product` (the fields `calculateOrderSplit` reads: `price`, `vendor`;
`id` kept for identity). From `src/data/products.tsx` / `CartProvider`. -/
structure Product where
  id : String
  price : ℚ
  vendor : String
deriving DecidableEq, Repr

/-- `CartItem` from `src/providers/CartProvider.tsx`. -/
structure CartItem where
  product : Product
  quantity : ℕ
deriving DecidableEq, Repr

/-- `Vendor` registry entry (the fields the payout service reads). From
`src/data/vendors.ts`. -/
structure Vendor where
  id : String
  name : String
  subaccount_code : String
deriving DecidableEq, Repr

/-- The static vendor registry from `src/data/vendors.ts` (ids and names as
in the source; subaccount codes use the fallback literals). -/
def vendors : List Vendor :=
  [ ⟨"VENDOR_001", "Fresh Farms", "ACCT_xxx1"⟩,
    ⟨"VENDOR_002", "Vegetable King", "ACCT_xxx2"⟩,
    ⟨"VENDOR_003", "Meat Masters", "ACCT_xxx3"⟩,
    ⟨"VENDOR_004", "Dairy Delight", "ACCT_xxx4"⟩,
    ⟨"VENDOR_005", "Bakery Corner", "ACCT_xxx5"⟩,
    ⟨"VENDOR_006", "Grains Galore", "ACCT_xxx6"⟩ ]

/-- `PayoutCalculation` from `src/services/vendorPayoutService.ts`. -/
structure PayoutCalculation where
  vendorId : String
  vendorName : String
  totalSales : ℚ
  platformFee : ℚ
  paystackFeeShare : ℚ
  vendorPayout : ℚ
  items : List CartItem
deriving DecidableEq, Repr

/-- `OrderSplit` from `src/services/vendorPayoutService.ts`. -/
structure OrderSplit where
  totalAmount : ℚ
  platformRevenue : ℚ
  totalPaystackFee : ℚ
  vendorPayouts : List PayoutCalculation
deriving DecidableEq, Repr

/-- `item.product.price * item.quantity`, one cart line's value. -/
def lineAmount (i : CartItem) : ℚ := i.product.price * i.quantity

/-- `cartItems.reduce((sum, item) => sum + item.product.price * item.quantity, 0)`. -/
def cartTotal (c : List CartItem) : ℚ :=
  c.foldl (fun s i => s + lineAmount i) 0

/-- The items of vendor `vid`, in cart order — `vendorSales[vid].items`
(the grouping loop pushes items in cart order). -/
def itemsOf (c : List CartItem) (vid : String) : List CartItem :=
  c.filter (fun i => i.product.vendor == vid)

/-- Vendor `vid`'s sales total — `vendorSales[vid].total` (the grouping loop
accumulates `price * quantity` over that vendor's items in cart order). -/
def salesOf (c : List CartItem) (vid : String) : ℚ :=
  ((itemsOf c vid).map lineAmount).sum

/-- The distinct vendor ids in first-seen cart order: the insertion order of
the keys of the `vendorSales` object built by the grouping `forEach` (JS
string-keyed objects preserve insertion order). -/
def collectVendorIds (acc : List String) : List CartItem → List String
  | [] => acc
  | i :: rest =>
      collectVendorIds
        (if acc.contains i.product.vendor then acc else acc ++ [i.product.vendor]) rest

/-- Keys of `vendorSales`, in insertion (first-seen) order. -/
def vendorIds (c : List CartItem) : List String := collectVendorIds [] c

/-- One iteration of the `Object.entries(vendorSales).forEach` body: looks
the vendor up in the registry; `if (!vendor) return;` skips (`none`),
otherwise builds the `PayoutCalculation` pushed onto `vendorPayouts`.
Fee arithmetic is in `ℚ` where the source uses binary64 doubles; theorems
about these values therefore either carry the spec's one-minor-unit
tolerance or are evaluated only at carts whose intermediate values are
binary64-exact dyadics (see the module docstring). -/
def mkPayout (c : List CartItem) (totalAmount totalPaystackFee : ℚ)
    (vid : String) : Option PayoutCalculation :=
  match vendors.find? (fun v => v.id == vid) with
  | none => none
  | some v =>
      let totalSales := salesOf c vid
      let platformFee := totalSales * (10 / 100)
      let vendorShareOfTotal := totalSales / totalAmount
      let paystackFeeShare := vendorShareOfTotal * totalPaystackFee
      some { vendorId := vid
             vendorName := v.name
             totalSales := totalSales
             platformFee := platformFee
             paystackFeeShare := paystackFeeShare
             vendorPayout := totalSales - platformFee - paystackFeeShare
             items := itemsOf c vid }

/-- `calculateOrderSplit` from `src/services/vendorPayoutService.ts`.
`totalPaystackFee = totalAmount * 0.015 + 100`; unknown vendors are skipped
by the `forEach` (hence `filterMap`); `platformRevenue` accumulates
`platformFee` over exactly the kept (registered) vendors. Money arithmetic
is `ℚ` in place of the source's binary64 doubles — see the module docstring
for how the theorems below account for that idealisation. -/
def calculateOrderSplit (cartItems : List CartItem) : OrderSplit :=
  let totalAmount := cartTotal cartItems
  let totalPaystackFee := totalAmount * (15 / 1000) + 100
  let vendorPayouts :=
    (vendorIds cartItems).filterMap (mkPayout cartItems totalAmount totalPaystackFee)
  { totalAmount := totalAmount
    platformRevenue := (vendorPayouts.map PayoutCalculation.platformFee).sum
    totalPaystackFee := totalPaystackFee
    vendorPayouts := vendorPayouts }

/-- JS `Math.round`: round half toward positive infinity. -/
def jsRound (x : ℚ) : ℤ := ⌊x + 1 / 2⌋

/-- One entry of the Paystack subaccounts array (`{subaccount, share}`),
share in kobo (minor units). -/
structure Subaccount where
  subaccount : String
  share : ℤ
deriving DecidableEq, Repr

/-- Stand-in for `process.env.PAYSTACK_GRUNDY_SUBACCOUNT`. -/
def grundySubaccount : String := "ACCT_GRUNDY"

/-- The body of the `map` in `generateSubaccountsForSplit`: throws
(`Except.error`) when the payout's vendor is not in the registry, else
`{subaccount: vendor.subaccount_code, share: Math.round(vendorPayout*100)}`. -/
def toSubaccount (p : PayoutCalculation) : Except String Subaccount :=
  match vendors.find? (fun v => v.id == p.vendorId) with
  | none => .error ("Vendor not found: " ++ p.vendorId)
  | some v => .ok { subaccount := v.subaccount_code, share := jsRound (p.vendorPayout * 100) }

/-- The `orderSplit.vendorPayouts.map(...)` of `generateSubaccountsForSplit`:
a JS `map` whose body can `throw`, i.e. the traversal aborts at the first
unregistered vendor. -/
def mapSubaccounts : List PayoutCalculation → Except String (List Subaccount)
  | [] => .ok []
  | p :: rest =>
      match toSubaccount p with
      | .error e => .error e
      | .ok s =>
          match mapSubaccounts rest with
          | .error e => .error e
          | .ok ss => .ok (s :: ss)

/-- `generateSubaccountsForSplit` from `src/services/vendorPayoutService.ts`:
per-vendor kobo shares (each independently `Math.round`ed), then the platform
entry `Math.round((platformRevenue + totalPaystackFee) * 100)` is pushed. -/
def generateSubaccountsForSplit (orderSplit : OrderSplit) : Except String (List Subaccount) :=
  match mapSubaccounts orderSplit.vendorPayouts with
  | .error e => .error e
  | .ok subs =>
      .ok (subs ++ [{ subaccount := grundySubaccount,
                      share := jsRound ((orderSplit.platformRevenue
                                 + orderSplit.totalPaystackFee) * 100) }])

/-! ### Order tracking service (`src/services/orderTrackingService.ts`) -/

/-- `Order['paymentStatus']`. -/
inductive PaymentStatus
  | pending | paid | failed | refunded | delivered
deriving DecidableEq, Repr

/-- `Order['paymentMethod']`. -/
inductive PaymentMethod
  | prepay_now | bank_transfer_delivery | terminal_delivery
deriving DecidableEq, Repr

/-- The projection of a Paystack `charge.success` payload (`paymentData`)
that the modelled code reads: `paymentData?.reference` (gateway transaction
id; `none` for absent/falsy), `paymentData.metadata?.orderReference`,
`paymentData.customer?.email`, and `paymentData.amount` (kobo). -/
structure PaymentData where
  reference : Option String
  metadataOrderReference : Option String
  customerEmail : Option String
  amount : ℚ
deriving DecidableEq, Repr

/-- `Order` from `src/services/orderTrackingService.ts` (timestamps as `ℕ`;
`paymentDetails` keeps the last raw `PaymentData`). -/
structure Order where
  id : String
  orderReference : String
  customerEmail : String
  customerName : String
  amount : ℚ
  items : List CartItem
  paymentMethod : PaymentMethod
  paymentStatus : PaymentStatus
  paymentReference : Option String
  paymentDetails : Option PaymentData
  createdAt : ℕ
  paidAt : Option ℕ
  deliveredAt : Option ℕ
  riderId : Option String
  terminalId : Option String
deriving DecidableEq, Repr

/-- The caller-supplied part of an order
(`Omit<Order, 'id' | 'createdAt' | 'paymentStatus'>`, restricted to the
fields the repository's callers actually pass). -/
structure OrderData where
  orderReference : String
  customerEmail : String
  customerName : String
  amount : ℚ
  items : List CartItem
  paymentMethod : PaymentMethod
  paymentReference : Option String
deriving DecidableEq, Repr

/-- The record built by `createOrder`: system-generated
`id = order_${Date.now()}`, `paymentStatus = 'pending'`, `createdAt = now`,
spread with the caller's data. -/
def mkOrder (d : OrderData) (now : ℕ) : Order :=
  { id := "order_" ++ toString now
    orderReference := d.orderReference
    customerEmail := d.customerEmail
    customerName := d.customerName
    amount := d.amount
    items := d.items
    paymentMethod := d.paymentMethod
    paymentStatus := .pending
    paymentReference := d.paymentReference
    paymentDetails := none
    createdAt := now
    paidAt := none
    deliveredAt := none
    riderId := none
    terminalId := none }

/-- `createOrder`: unconditionally pushes the new order onto the module-level
`orders` array (no duplicate-reference check) and returns it. -/
def createOrder (orders : List Order) (d : OrderData) (now : ℕ) : List Order × Order :=
  (orders ++ [mkOrder d now], mkOrder d now)

/-- In-place mutation of the first array element satisfying `p`
(`orders.find(...)` followed by field assignments on the found record). -/
def updateFirst (p : Order → Bool) (f : Order → Order) : List Order → List Order
  | [] => []
  | o :: rest => if p o then f o :: rest else o :: updateFirst p f rest

/-- `updateOrderPaymentStatus` from `src/services/orderTrackingService.ts`:
finds the first order with the reference; sets `paymentStatus`
unconditionally, `paymentReference = paymentData?.reference ||
order.paymentReference`, `paymentDetails = paymentData`, and overwrites
`paidAt = now` whenever the new status is `'paid'`. Not-found is a no-op
(only logs). -/
def updateOrderPaymentStatus (orders : List Order) (orderReference : String)
    (paymentStatus : PaymentStatus) (paymentData : Option PaymentData)
    (now : ℕ) : List Order :=
  updateFirst (fun o => o.orderReference == orderReference)
    (fun o =>
      { o with
        paymentStatus := paymentStatus
        paymentReference := (paymentData.bind PaymentData.reference).or o.paymentReference
        paymentDetails := paymentData
        paidAt := if paymentStatus = .paid then some now else o.paidAt })
    orders

/-- `updateOrderDeliveryStatus`: sets `riderId` and `terminalId` on the first
matching order (unconditionally, even overwriting with `none`). -/
def updateOrderDeliveryStatus (orders : List Order) (orderReference : String)
    (riderId terminalId : Option String) : List Order :=
  updateFirst (fun o => o.orderReference == orderReference)
    (fun o => { o with riderId := riderId, terminalId := terminalId }) orders

/-- `completeOrderDelivery`: sets `deliveredAt = now` and
`paymentStatus = 'delivered'` on the first matching order — with no check of
the current status. Not-found is a no-op. -/
def completeOrderDelivery (orders : List Order) (orderReference : String)
    (now : ℕ) : List Order :=
  updateFirst (fun o => o.orderReference == orderReference)
    (fun o => { o with deliveredAt := some now, paymentStatus := .delivered }) orders

/-- `getOrderByReference`: `orders.find(o => o.orderReference === ref)`. -/
def getOrderByReference (orders : List Order) (orderReference : String) : Option Order :=
  orders.find? (fun o => o.orderReference == orderReference)

/-! ### Webhook charge-success reconciliation
(`src/app/api/webhooks/paystack/route.ts`) -/

/-- The order-resolution cascade of `handleChargeSuccess`:
method 1 — by `metadata.orderReference`; method 2 — first stored order with
`order.paymentReference === paymentData.reference` (strict equality, so two
absent values also match); method 3 — by `(customer.email, amount / 100)`,
accepted only when exactly one order matches. -/
def resolveOrder (orders : List Order) (pd : PaymentData) : Option Order :=
  let method1 :=
    match pd.metadataOrderReference with
    | some r => getOrderByReference orders r
    | none => none
  match method1 with
  | some o => some o
  | none =>
    match orders.find? (fun o => o.paymentReference == pd.reference) with
    | some o => some o
    | none =>
      match pd.customerEmail with
      | none => none
      | some email =>
        let matching := orders.filter
          (fun o => o.customerEmail == email && o.amount == pd.amount / 100)
        if matching.length == 1 then matching.head? else none

/-- The `paymentDetails` payload `handleChargeSuccess` passes on:
`{...paymentData, orderReference, transactionReference: paymentData.reference}`
(projected onto the fields the model carries). -/
def enrichPaymentData (pd : PaymentData) (orderReference : String) : PaymentData :=
  { pd with metadataOrderReference := some orderReference }

/-- The state effect of `handleChargeSuccess`: if no resolution strategy
finds an order it logs and returns (`if (!existingOrder) ... return;`) —
no mutation, no order creation; otherwise it applies exactly
`updateOrderPaymentStatus(orderReference, 'paid', {...})`. -/
def handleChargeSuccess (orders : List Order) (pd : PaymentData) (now : ℕ) : List Order :=
  match resolveOrder orders pd with
  | none => orders
  | some o =>
      updateOrderPaymentStatus orders o.orderReference .paid
        (some (enrichPaymentData pd o.orderReference)) now

/-! ### Concrete inputs used in counterexamples and witnesses -/

/-- Two registered vendors, one ₦333 line and one ₦667 line
(total ₦1000). -/
def twoVendorCart : List CartItem :=
  [ ⟨⟨"p1", 333, "VENDOR_001"⟩, 1⟩, ⟨⟨"p2", 667, "VENDOR_002"⟩, 1⟩ ]

/-- Two registered vendors with dyadic sales shares: ₦125 and ₦875 lines
(total ₦1000, shares 1/8 and 7/8). Every intermediate value of the source's
computation at this cart (12.5, 14.375, 98.125, 9812.5, …) is exactly
representable in binary64, so the program's double arithmetic agrees with
the rational model step for step. -/
def dyadicCart : List CartItem :=
  [ ⟨⟨"q1", 125, "VENDOR_001"⟩, 1⟩, ⟨⟨"q2", 875, "VENDOR_002"⟩, 1⟩ ]

/-- A cart containing a line from a vendor absent from the registry
(`VENDOR_999`) next to a registered vendor's line. -/
def unknownVendorCart : List CartItem :=
  [ ⟨⟨"px", 100, "VENDOR_999"⟩, 1⟩, ⟨⟨"py", 200, "VENDOR_001"⟩, 1⟩ ]

/-- A stored order used by the state-machine counterexamples. -/
def baseOrder : Order :=
  { id := "order_10"
    orderReference := "REF_1"
    customerEmail := "a@x.com"
    customerName := "Ada"
    amount := 1000
    items := []
    paymentMethod := .prepay_now
    paymentStatus := .pending
    paymentReference := none
    paymentDetails := none
    createdAt := 10
    paidAt := none
    deliveredAt := none
    riderId := none
    terminalId := none }

/-- A successful-payment event for `baseOrder` carrying gateway reference
`"PSK_A"`. -/
def eventA : PaymentData :=
  { reference := some "PSK_A"
    metadataOrderReference := some "REF_1"
    customerEmail := some "a@x.com"
    amount := 100000 }

/-- A later event for the same order carrying a different gateway reference. -/
def eventB : PaymentData :=
  { reference := some "PSK_B"
    metadataOrderReference := some "REF_1"
    customerEmail := some "a@x.com"
    amount := 100000 }

/-- `baseOrder` after a successful payment (`paymentReference` set). -/
def paidOrder : Order :=
  { baseOrder with
    paymentStatus := .paid
    paymentReference := some "PSK_A"
    paidAt := some 20 }

/-- `baseOrder` in the terminal `delivered` state. -/
def deliveredOrder : Order :=
  { baseOrder with
    paymentStatus := .delivered
    paymentReference := some "PSK_A"
    paidAt := some 20
    deliveredAt := some 30 }

/-- Creation data reusing `baseOrder`'s reference `"REF_1"` (a duplicate). -/
def dupOrderData : OrderData :=
  { orderReference := "REF_1"
    customerEmail := "b@x.com"
    customerName := "Bela"
    amount := 500
    items := []
    paymentMethod := .terminal_delivery
    paymentReference := none }

/-- Two distinct stored orders sharing customer email and amount. -/
def orderX1 : Order :=
  { baseOrder with orderReference := "REF_A", paymentReference := some "X1" }

/-- See `orderX1`. -/
def orderX2 : Order :=
  { baseOrder with orderReference := "REF_B", paymentReference := some "X2" }

/-- A charge-success notification with no metadata reference, a gateway
reference matching no stored order, and an email/amount pair matching both
`orderX1` and `orderX2` (kobo amount 100000 = ₦1000). -/
def ambiguousEvent : PaymentData :=
  { reference := some "ZZZ"
    metadataOrderReference := none
    customerEmail := some "a@x.com"
    amount := 100000 }

/-! ## List-sum helper lemmas -/

lemma foldl_add_eq (f : CartItem → ℚ) :
    ∀ (c : List CartItem) (a : ℚ), c.foldl (fun s i => s + f i) a = a + (c.map f).sum
  | [], a => by simp
  | i :: c, a => by
      rw [List.foldl_cons, foldl_add_eq f c (a + f i), List.map_cons, List.sum_cons]
      ring

lemma cartTotal_eq_sum (c : List CartItem) : cartTotal c = (c.map lineAmount).sum := by
  rw [cartTotal, foldl_add_eq, zero_add]

lemma list_sum_map_add {α : Type} (f g : α → ℚ) :
    ∀ l : List α, (l.map (fun x => f x + g x)).sum = (l.map f).sum + (l.map g).sum
  | [] => by simp
  | x :: l => by simp [list_sum_map_add f g l]; ring

lemma list_sum_map_sub {α : Type} (f g : α → ℚ) :
    ∀ l : List α, (l.map (fun x => f x - g x)).sum = (l.map f).sum - (l.map g).sum
  | [] => by simp
  | x :: l => by simp [list_sum_map_sub f g l]; ring

lemma list_sum_map_mul_right {α : Type} (f : α → ℚ) (k : ℚ) :
    ∀ l : List α, (l.map (fun x => f x * k)).sum = (l.map f).sum * k
  | [] => by simp
  | x :: l => by simp [list_sum_map_mul_right f k l]; ring

/-- Summing an indicator over a duplicate-free list that contains `x`
yields the indicated value once. -/
lemma sum_indicator_nodup (x : String) (a : ℚ) :
    ∀ ids : List String, ids.Nodup → x ∈ ids →
      (ids.map (fun k => if x = k then a else 0)).sum = a
  | [], _, hx => by simp at hx
  | k :: ids, hnd, hx => by
      rw [List.map_cons, List.sum_cons]
      rcases List.mem_cons.mp hx with hk | hk
      · subst hk
        have hx' : x ∉ ids := (List.nodup_cons.mp hnd).1
        have hz : (ids.map (fun k => if x = k then a else 0)).sum = 0 := by
          rw [List.sum_eq_zero]
          intro q hq
          rcases List.mem_map.mp hq with ⟨k', hk', hk'q⟩
          have hne : x ≠ k' := fun h => hx' (h ▸ hk')
          rw [← hk'q, if_neg hne]
        rw [if_pos rfl, hz, add_zero]
      · have hne : x ≠ k := fun h => (List.nodup_cons.mp hnd).1 (h ▸ hk)
        rw [if_neg hne, zero_add]
        exact sum_indicator_nodup x a ids (List.nodup_cons.mp hnd).2 hk

/-! ## `vendorIds` (grouping-key) lemmas -/

lemma mem_collect_of_mem_acc {x : String} :
    ∀ (c : List CartItem) (acc : List String), x ∈ acc → x ∈ collectVendorIds acc c
  | [], _, hx => hx
  | i :: c, acc, hx => by
      rw [collectVendorIds]
      by_cases h : acc.contains i.product.vendor = true
      · rw [if_pos h]; exact mem_collect_of_mem_acc c acc hx
      · rw [if_neg h]; exact mem_collect_of_mem_acc c _ (List.mem_append_left _ hx)

lemma vendor_mem_collect :
    ∀ (c : List CartItem) (acc : List String) (i : CartItem), i ∈ c →
      i.product.vendor ∈ collectVendorIds acc c
  | [], _, _, hi => by simp at hi
  | j :: c, acc, i, hi => by
      rw [collectVendorIds]
      rcases List.mem_cons.mp hi with hj | hj
      · subst hj
        by_cases h : acc.contains i.product.vendor = true
        · rw [if_pos h]
          exact mem_collect_of_mem_acc c acc (by simpa using h)
        · rw [if_neg h]
          exact mem_collect_of_mem_acc c _ (by simp)
      · exact vendor_mem_collect c _ i hj

lemma collect_subset :
    ∀ (c : List CartItem) (acc : List String) (x : String),
      x ∈ collectVendorIds acc c → x ∈ acc ∨ ∃ i ∈ c, i.product.vendor = x
  | [], _, _, hx => Or.inl hx
  | j :: c, acc, x, hx => by
      rw [collectVendorIds] at hx
      by_cases h : acc.contains j.product.vendor = true
      · rw [if_pos h] at hx
        rcases collect_subset c acc x hx with h' | ⟨i, hi, hv⟩
        · exact Or.inl h'
        · exact Or.inr ⟨i, List.mem_cons_of_mem _ hi, hv⟩
      · rw [if_neg h] at hx
        rcases collect_subset c _ x hx with h' | ⟨i, hi, hv⟩
        · rcases List.mem_append.mp h' with h'' | h''
          · exact Or.inl h''
          · exact Or.inr ⟨j, List.mem_cons_self _ _, (List.mem_singleton.mp h'').symm⟩
        · exact Or.inr ⟨i, List.mem_cons_of_mem _ hi, hv⟩

lemma collect_nodup :
    ∀ (c : List CartItem) (acc : List String), acc.Nodup → (collectVendorIds acc c).Nodup
  | [], _, hnd => hnd
  | j :: c, acc, hnd => by
      rw [collectVendorIds]
      by_cases h : acc.contains j.product.vendor = true
      · rw [if_pos h]; exact collect_nodup c acc hnd
      · rw [if_neg h]
        refine collect_nodup c _ ?_
        have hnm : j.product.vendor ∉ acc := by simpa using h
        simp [List.nodup_append, hnd, hnm]

lemma vendorIds_nodup (c : List CartItem) : (vendorIds c).Nodup :=
  collect_nodup c [] List.nodup_nil

lemma vendorIds_cover (c : List CartItem) (i : CartItem) (hi : i ∈ c) :
    i.product.vendor ∈ vendorIds c :=
  vendor_mem_collect c [] i hi

lemma vendorIds_sound (c : List CartItem) (x : String) (hx : x ∈ vendorIds c) :
    ∃ i ∈ c, i.product.vendor = x := by
  rcases collect_subset c [] x hx with h | h
  · simp at h
  · exact h

/-! ## Fiber-sum lemma: grouping by vendor preserves the total -/

lemma salesOf_nil (k : String) : salesOf [] k = 0 := by simp [salesOf, itemsOf]

lemma salesOf_cons (i : CartItem) (l : List CartItem) (k : String) :
    salesOf (i :: l) k =
      (if i.product.vendor = k then lineAmount i else 0) + salesOf l k := by
  by_cases h : i.product.vendor = k
  · simp [salesOf, itemsOf, List.filter_cons, h]
  · simp [salesOf, itemsOf, List.filter_cons, h]

lemma sum_salesOf (ids : List String) (hnd : ids.Nodup) :
    ∀ l : List CartItem, (∀ i ∈ l, i.product.vendor ∈ ids) →
      (ids.map (fun k => salesOf l k)).sum = (l.map lineAmount).sum
  | [], _ => by
      rw [List.map_nil, List.sum_nil, List.sum_eq_zero]
      intro q hq
      rcases List.mem_map.mp hq with ⟨k, _, hk⟩
      rw [← hk, salesOf_nil]
  | i :: l, hcov => by
      have h1 : (ids.map (fun k => salesOf (i :: l) k)).sum
          = (ids.map (fun k =>
              (if i.product.vendor = k then lineAmount i else 0) + salesOf l k)).sum := by
        congr 1
        exact List.map_congr_left (fun k _ => salesOf_cons i l k)
      rw [h1, list_sum_map_add,
        sum_indicator_nodup i.product.vendor (lineAmount i) ids hnd
          (hcov i (List.mem_cons_self _ _)),
        sum_salesOf ids hnd l (fun j hj => hcov j (List.mem_cons_of_mem _ hj))]
      simp

/-! ## Conservation of the split -/

lemma sum_map_filterMap {α β : Type} (f : α → Option β) (proj : β → ℚ) (g : α → ℚ) :
    ∀ l : List α, (∀ a ∈ l, ∃ b, f a = some b ∧ proj b = g a) →
      ((l.filterMap f).map proj).sum = (l.map g).sum
  | [], _ => by simp
  | a :: l, h => by
      obtain ⟨b, hb, hpb⟩ := h a (List.mem_cons_self _ _)
      have ih := sum_map_filterMap f proj g l (fun x hx => h x (List.mem_cons_of_mem _ hx))
      simp [List.filterMap_cons, hb, ih, hpb]

lemma mkPayout_found {vid : String} {v : Vendor} (c : List CartItem) (T F : ℚ)
    (h : vendors.find? (fun w => w.id == vid) = some v) :
    mkPayout c T F vid = some
      { vendorId := vid
        vendorName := v.name
        totalSales := salesOf c vid
        platformFee := salesOf c vid * (10 / 100)
        paystackFeeShare := salesOf c vid / T * F
        vendorPayout := salesOf c vid - salesOf c vid * (10 / 100) - salesOf c vid / T * F
        items := itemsOf c vid } := by
  rw [mkPayout, h]

lemma vendorIds_found (c : List CartItem)
    (hreg : ∀ i ∈ c, (vendors.find? (fun v => v.id == i.product.vendor)).isSome) :
    ∀ vid ∈ vendorIds c, ∃ v, vendors.find? (fun w => w.id == vid) = some v := by
  intro vid hvid
  obtain ⟨i, hi, hv⟩ := vendorIds_sound c vid hvid
  have := hreg i hi
  rw [hv] at this
  exact Option.isSome_iff_exists.mp this

/-- Exact conservation of `calculateOrderSplit` when every cart line's vendor
is registered and the order total is nonzero: the vendor-payout columns sum
to the overall totals (over exact rational arithmetic). -/
lemma split_conservation (c : List CartItem)
    (hreg : ∀ i ∈ c, (vendors.find? (fun v => v.id == i.product.vendor)).isSome)
    (hnz : cartTotal c ≠ 0) :
    ((calculateOrderSplit c).vendorPayouts.map PayoutCalculation.totalSales).sum
        = cartTotal c ∧
    ((calculateOrderSplit c).vendorPayouts.map PayoutCalculation.platformFee).sum
        = cartTotal c * (10 / 100) ∧
    ((calculateOrderSplit c).vendorPayouts.map PayoutCalculation.paystackFeeShare).sum
        = cartTotal c * (15 / 1000) + 100 ∧
    ((calculateOrderSplit c).vendorPayouts.map PayoutCalculation.vendorPayout).sum
        = cartTotal c - cartTotal c * (10 / 100) - (cartTotal c * (15 / 1000) + 100) := by
  have hfound := vendorIds_found c hreg
  have hps : (calculateOrderSplit c).vendorPayouts
      = (vendorIds c).filterMap
          (mkPayout c (cartTotal c) (cartTotal c * (15 / 1000) + 100)) := rfl
  have hS : ((vendorIds c).map (fun vid => salesOf c vid)).sum = cartTotal c := by
    rw [sum_salesOf (vendorIds c) (vendorIds_nodup c) c (vendorIds_cover c),
      cartTotal_eq_sum]
  have hsum1 : ((calculateOrderSplit c).vendorPayouts.map PayoutCalculation.totalSales).sum
      = ((vendorIds c).map (fun vid => salesOf c vid)).sum := by
    rw [hps]
    refine sum_map_filterMap _ _ _ (vendorIds c) ?_
    intro vid hvid
    obtain ⟨v, hv⟩ := hfound vid hvid
    exact ⟨_, mkPayout_found c _ _ hv, rfl⟩
  have hsum2 : ((calculateOrderSplit c).vendorPayouts.map PayoutCalculation.platformFee).sum
      = ((vendorIds c).map (fun vid => salesOf c vid * (10 / 100))).sum := by
    rw [hps]
    refine sum_map_filterMap _ _ _ (vendorIds c) ?_
    intro vid hvid
    obtain ⟨v, hv⟩ := hfound vid hvid
    exact ⟨_, mkPayout_found c _ _ hv, rfl⟩
  have hsum3 : ((calculateOrderSplit c).vendorPayouts.map PayoutCalculation.paystackFeeShare).sum
      = ((vendorIds c).map (fun vid =>
          salesOf c vid / cartTotal c * (cartTotal c * (15 / 1000) + 100))).sum := by
    rw [hps]
    refine sum_map_filterMap _ _ _ (vendorIds c) ?_
    intro vid hvid
    obtain ⟨v, hv⟩ := hfound vid hvid
    exact ⟨_, mkPayout_found c _ _ hv, rfl⟩
  have hsum4 : ((calculateOrderSplit c).vendorPayouts.map PayoutCalculation.vendorPayout).sum
      = ((vendorIds c).map (fun vid =>
          salesOf c vid - salesOf c vid * (10 / 100)
            - salesOf c vid / cartTotal c * (cartTotal c * (15 / 1000) + 100))).sum := by
    rw [hps]
    refine sum_map_filterMap _ _ _ (vendorIds c) ?_
    intro vid hvid
    obtain ⟨v, hv⟩ := hfound vid hvid
    exact ⟨_, mkPayout_found c _ _ hv, rfl⟩
  have h2 : ((vendorIds c).map (fun vid => salesOf c vid * (10 / 100))).sum
      = cartTotal c * (10 / 100) := by
    rw [list_sum_map_mul_right, hS]
  have h3 : ((vendorIds c).map (fun vid =>
      salesOf c vid / cartTotal c * (cartTotal c * (15 / 1000) + 100))).sum
      = cartTotal c * (15 / 1000) + 100 := by
    have hcg : ((vendorIds c).map (fun vid =>
        salesOf c vid / cartTotal c * (cartTotal c * (15 / 1000) + 100)))
        = ((vendorIds c).map (fun vid =>
            salesOf c vid * ((cartTotal c * (15 / 1000) + 100) / cartTotal c))) := by
      refine List.map_congr_left ?_
      intro vid _
      rw [div_mul_eq_mul_div, mul_div_assoc]
    rw [hcg, list_sum_map_mul_right, hS, mul_comm]
    exact div_mul_cancel₀ _ hnz
  have h4 : ((vendorIds c).map (fun vid =>
      salesOf c vid - salesOf c vid * (10 / 100)
        - salesOf c vid / cartTotal c * (cartTotal c * (15 / 1000) + 100))).sum
      = cartTotal c - cartTotal c * (10 / 100) - (cartTotal c * (15 / 1000) + 100) := by
    rw [list_sum_map_sub (fun vid => salesOf c vid - salesOf c vid * (10 / 100))
        (fun vid => salesOf c vid / cartTotal c * (cartTotal c * (15 / 1000) + 100)),
      list_sum_map_sub (fun vid => salesOf c vid) (fun vid => salesOf c vid * (10 / 100)),
      hS, h2, h3]
  exact ⟨by rw [hsum1, hS], by rw [hsum2, h2], by rw [hsum3, h3], by rw [hsum4, h4]⟩

/-- Every payout `calculateOrderSplit` emits belongs to a registered vendor
(unregistered ones are skipped by the `forEach`). -/
lemma payout_vendor_found (c : List CartItem) :
    ∀ p ∈ (calculateOrderSplit c).vendorPayouts,
      ∃ v, vendors.find? (fun w => w.id == p.vendorId) = some v := by
  intro p hp
  have hps : (calculateOrderSplit c).vendorPayouts
      = (vendorIds c).filterMap
          (mkPayout c (cartTotal c) (cartTotal c * (15 / 1000) + 100)) := rfl
  rw [hps] at hp
  obtain ⟨vid, _, hmk⟩ := List.mem_filterMap.mp hp
  rw [mkPayout] at hmk
  cases hfind : vendors.find? (fun v => v.id == vid) with
  | none => rw [hfind] at hmk; exact absurd hmk (by simp)
  | some v =>
      rw [hfind] at hmk
      have hpv : p.vendorId = vid := by
        cases hmk
        rfl
      rw [hpv, hfind]
      exact ⟨v, rfl⟩

/-! ## Rounding lemmas for the gateway share configuration -/

/-- `Math.round` moves a value by at most half a unit. -/
lemma jsRound_close (x : ℚ) : |(jsRound x : ℚ) - x| ≤ 1 / 2 := by
  rw [abs_sub_le_iff]
  constructor
  · have h : ((⌊x + 1 / 2⌋ : ℤ) : ℚ) ≤ x + 1 / 2 := Int.floor_le (x + 1 / 2)
    rw [jsRound]
    linarith
  · have h : x + 1 / 2 < (⌊x + 1 / 2⌋ : ℤ) + 1 := Int.lt_floor_add_one (x + 1 / 2)
    rw [jsRound]
    linarith

lemma int_cast_list_sum : ∀ l : List ℤ, ((l.sum : ℤ) : ℚ) = (l.map (Int.cast : ℤ → ℚ)).sum
  | [] => by simp
  | x :: l => by
      rw [List.sum_cons, List.map_cons, List.sum_cons, ← int_cast_list_sum l]
      push_cast
      ring

/-- Rounding each list entry independently moves the sum by at most half a
unit per entry. -/
lemma sum_jsRound_close :
    ∀ l : List ℚ, |((l.map jsRound).sum : ℚ) - l.sum| ≤ l.length / 2
  | [] => by simp
  | x :: l => by
      have h1 := jsRound_close x
      have h2 := sum_jsRound_close l
      rw [List.map_cons, List.sum_cons, List.sum_cons, List.length_cons]
      have he : (((jsRound x + (l.map jsRound).sum : ℤ) : ℚ)) - (x + l.sum)
          = ((jsRound x : ℚ) - x) + (((l.map jsRound).sum : ℚ) - l.sum) := by
        push_cast
        ring
      rw [he]
      have h3 := abs_add ((jsRound x : ℚ) - x) (((l.map jsRound).sum : ℚ) - l.sum)
      have h4 : ((l.length + 1 : ℕ) : ℚ) / 2 = (l.length : ℚ) / 2 + 1 / 2 := by
        push_cast
        ring
      rw [h4]
      linarith

/-- When every payout's vendor is found, `mapSubaccounts` succeeds and
produces exactly the independently rounded kobo shares. -/
lemma mapSubaccounts_ok :
    ∀ l : List PayoutCalculation,
      (∀ p ∈ l, ∃ v, vendors.find? (fun w => w.id == p.vendorId) = some v) →
      ∃ out : List Subaccount, mapSubaccounts l = .ok out ∧
        out.map Subaccount.share
          = l.map (fun p : PayoutCalculation => jsRound (p.vendorPayout * 100))
  | [], _ => ⟨[], rfl, rfl⟩
  | p :: l, h => by
      obtain ⟨v, hv⟩ := h p (List.mem_cons_self _ _)
      obtain ⟨out, hok, hsh⟩ :=
        mapSubaccounts_ok l (fun q hq => h q (List.mem_cons_of_mem _ hq))
      have hp : toSubaccount p
          = .ok { subaccount := v.subaccount_code, share := jsRound (p.vendorPayout * 100) } := by
        rw [toSubaccount, hv]
      refine ⟨{ subaccount := v.subaccount_code,
                share := jsRound (p.vendorPayout * 100) } :: out, ?_, ?_⟩
      · rw [mapSubaccounts, hp, hok]
      · rw [List.map_cons, List.map_cons, hsh]

/-! ## Order-store lemmas -/

lemma updateFirst_nil (p : Order → Bool) (f : Order → Order) :
    updateFirst p f [] = [] := rfl

/-- If the mutation preserves the search key, looking the order up after the
update finds exactly the mutated first match. -/
lemma find?_updateFirst (p : Order → Bool) (f : Order → Order)
    (hf : ∀ o, p o = true → p (f o) = true) :
    ∀ orders : List Order,
      (updateFirst p f orders).find? p = (orders.find? p).map f
  | [] => by simp [updateFirst]
  | o :: rest => by
      by_cases h : p o = true
      · rw [updateFirst, if_pos h, List.find?_cons_of_pos _ (hf o h),
          List.find?_cons_of_pos _ h]
        rfl
      · rw [updateFirst, if_neg h, List.find?_cons_of_neg _ h,
          List.find?_cons_of_neg _ h]
        exact find?_updateFirst p f hf rest

/-- An update whose key matches nothing is a no-op. -/
lemma updateFirst_nomatch (p : Order → Bool) (f : Order → Order) :
    ∀ orders : List Order, orders.find? p = none → updateFirst p f orders = orders
  | [], _ => rfl
  | o :: rest, h => by
      have h' : ¬p o = true := by
        intro hp
        rw [List.find?_cons_of_pos _ hp] at h
        exact Option.noConfusion h
      rw [List.find?_cons_of_neg _ h'] at h
      rw [updateFirst, if_neg h', updateFirst_nomatch p f rest h]

/-- When the prefix already contains a match, the update touches only the
prefix: every record after it — in particular a later duplicate — is left
untouched. -/
lemma updateFirst_append_left (p : Order → Bool) (f : Order → Order) :
    ∀ l₁ l₂ : List Order, (l₁.find? p).isSome →
      updateFirst p f (l₁ ++ l₂) = updateFirst p f l₁ ++ l₂
  | [], _, h => by simp at h
  | o :: l₁, l₂, h => by
      by_cases hp : p o = true
      · rw [List.cons_append, updateFirst, if_pos hp, updateFirst, if_pos hp,
          List.cons_append]
      · rw [List.find?_cons_of_neg _ hp] at h
        rw [List.cons_append, updateFirst, if_neg hp, updateFirst, if_neg hp,
          List.cons_append, updateFirst_append_left p f l₁ l₂ h]

/-- Lookup by reference ignores a suffix when the prefix already has a
match (`Array.prototype.find` returns the first, i.e. earliest-created,
match). -/
lemma getOrderByReference_append (l₁ l₂ : List Order) (r : String)
    (h : ((l₁.find? (fun o => o.orderReference == r)).isSome)) :
    getOrderByReference (l₁ ++ l₂) r = getOrderByReference l₁ r := by
  rw [getOrderByReference, getOrderByReference, List.find?_append]
  obtain ⟨o, ho⟩ := Option.isSome_iff_exists.mp h
  rw [ho]
  rfl

/-! ## Claim C1 — split conservation -/

/-- C1 counterexample: on the empty cart, `calculateOrderSplit` returns a
split whose `Σ vendorPayout + platformRevenue + totalPaystackFee` exceeds
`totalAmount` by the flat fee of 100 (= 10,000 minor units), far more than
one minor unit of rounding residue — so the claim fails "for every cart". -/
theorem C1_counterexample :
    ((calculateOrderSplit []).vendorPayouts.map PayoutCalculation.vendorPayout).sum
        + (calculateOrderSplit []).platformRevenue
        + (calculateOrderSplit []).totalPaystackFee
      ≠ (calculateOrderSplit []).totalAmount ∧
    ((calculateOrderSplit []).vendorPayouts.map PayoutCalculation.vendorPayout).sum
        + (calculateOrderSplit []).platformRevenue
        + (calculateOrderSplit []).totalPaystackFee
        - (calculateOrderSplit []).totalAmount = 100 := by
  constructor <;> norm_num [calculateOrderSplit, cartTotal, vendorIds, collectVendorIds]

/-- C1 (amended): for every cart all of whose lines reference registered
vendors and whose order total is nonzero, the `OrderSplit` returned by
`calculateOrderSplit` satisfies `Σ totalSales = totalAmount` and
`Σ vendorPayout + platformRevenue + totalPaystackFee = totalAmount` within
one minor unit (1 kobo = 0.01, amounts are in naira). In the rational
model the deviations vanish; the binary64 source deviates by ~1e-13 at
such carts — in any case far within the one-minor-unit tolerance. -/
theorem C1_split_conservation (c : List CartItem)
    (hreg : ∀ i ∈ c, (vendors.find? (fun v => v.id == i.product.vendor)).isSome)
    (hnz : cartTotal c ≠ 0) :
    |((calculateOrderSplit c).vendorPayouts.map PayoutCalculation.totalSales).sum
        - (calculateOrderSplit c).totalAmount| ≤ 1 / 100 ∧
    |((calculateOrderSplit c).vendorPayouts.map PayoutCalculation.vendorPayout).sum
        + (calculateOrderSplit c).platformRevenue
        + (calculateOrderSplit c).totalPaystackFee
        - (calculateOrderSplit c).totalAmount| ≤ 1 / 100 := by
  obtain ⟨h1, h2, _, h4⟩ := split_conservation c hreg hnz
  have hta : (calculateOrderSplit c).totalAmount = cartTotal c := rfl
  have hpr : (calculateOrderSplit c).platformRevenue
      = ((calculateOrderSplit c).vendorPayouts.map PayoutCalculation.platformFee).sum := rfl
  have hfee : (calculateOrderSplit c).totalPaystackFee
      = cartTotal c * (15 / 1000) + 100 := rfl
  constructor
  · rw [hta, h1, sub_self, abs_zero]
    norm_num
  · have hz : ((calculateOrderSplit c).vendorPayouts.map PayoutCalculation.vendorPayout).sum
        + (calculateOrderSplit c).platformRevenue
        + (calculateOrderSplit c).totalPaystackFee
        - (calculateOrderSplit c).totalAmount = 0 := by
      rw [hta, hpr, h2, hfee, h4]
      ring
    rw [hz, abs_zero]
    norm_num

/-- C1 witness: the two-vendor ₦333/₦667 cart satisfies the hypotheses and
both conservation equations within one minor unit. -/
theorem C1_witness :
    |((calculateOrderSplit twoVendorCart).vendorPayouts.map
          PayoutCalculation.totalSales).sum
        - (calculateOrderSplit twoVendorCart).totalAmount| ≤ 1 / 100 ∧
    |((calculateOrderSplit twoVendorCart).vendorPayouts.map
          PayoutCalculation.vendorPayout).sum
        + (calculateOrderSplit twoVendorCart).platformRevenue
        + (calculateOrderSplit twoVendorCart).totalPaystackFee
        - (calculateOrderSplit twoVendorCart).totalAmount| ≤ 1 / 100 :=
  C1_split_conservation twoVendorCart (by decide)
    (by norm_num [cartTotal, twoVendorCart, lineAmount])

/-! ## Claim C4 — gateway split-config conservation -/

/-- C4 counterexample: on the ₦125/₦875 cart (`dyadicCart`) the kobo shares
are rounded independently (`Math.round` per entry): the vendor payouts are
exactly 98.125 and 686.875 naira, i.e. 9812.5 and 68687.5 kobo, each rounded
up to 9813 and 68688, so the shares sum to 100001 kobo while the order total
is 100000 kobo — the sum is not exact and no residue compensation is applied
to the fee-bearer's share. Every intermediate value at this cart is a
binary64-representable dyadic rational, so the source's double arithmetic
computes these very numbers. -/
theorem C4_counterexample :
    generateSubaccountsForSplit (calculateOrderSplit dyadicCart)
      = .ok [ ⟨"ACCT_xxx1", 9813⟩, ⟨"ACCT_xxx2", 68688⟩, ⟨"ACCT_GRUNDY", 21500⟩ ] ∧
    (9813 + 68688 + 21500 : ℤ) = 100001 ∧
    100 * (calculateOrderSplit dyadicCart).totalAmount = 100000 := by
  refine ⟨?_, by norm_num, ?_⟩
  · simp [generateSubaccountsForSplit, mapSubaccounts, toSubaccount,
      calculateOrderSplit, cartTotal, dyadicCart, lineAmount, vendorIds,
      collectVendorIds, mkPayout, vendors, salesOf, itemsOf, grundySubaccount]
    norm_num [jsRound]
  · norm_num [calculateOrderSplit, cartTotal, dyadicCart, lineAmount]

/-- C4 (amended): for carts of registered vendors with nonzero total,
`generateSubaccountsForSplit` succeeds, and because every share (each
vendor's and the platform's) is rounded independently, the sum of the kobo
shares equals the order total in kobo only up to half a kobo per share —
`|Σ share − 100·totalAmount| ≤ (k+1)/2` for `k` vendor payouts — not
exactly, and no residue is assigned to the fee-bearer's share. -/
theorem C4_share_sum_bound (c : List CartItem)
    (hreg : ∀ i ∈ c, (vendors.find? (fun v => v.id == i.product.vendor)).isSome)
    (hnz : cartTotal c ≠ 0) :
    ∃ subs : List Subaccount,
      generateSubaccountsForSplit (calculateOrderSplit c) = .ok subs ∧
      |((subs.map Subaccount.share).sum : ℚ)
          - 100 * (calculateOrderSplit c).totalAmount|
        ≤ (((calculateOrderSplit c).vendorPayouts.length : ℚ) + 1) / 2 := by
  obtain ⟨out, hok, hsh⟩ :=
    mapSubaccounts_ok (calculateOrderSplit c).vendorPayouts (payout_vendor_found c)
  obtain ⟨_, h2, _, h4⟩ := split_conservation c hreg hnz
  refine ⟨out ++ [⟨grundySubaccount,
                   jsRound (((calculateOrderSplit c).platformRevenue
                     + (calculateOrderSplit c).totalPaystackFee) * 100)⟩], ?_, ?_⟩
  · rw [generateSubaccountsForSplit, hok]
  · have hmap : (out ++ [(⟨grundySubaccount,
        jsRound (((calculateOrderSplit c).platformRevenue
          + (calculateOrderSplit c).totalPaystackFee) * 100)⟩ : Subaccount)]).map Subaccount.share
        = (((calculateOrderSplit c).vendorPayouts.map
              (fun p : PayoutCalculation => p.vendorPayout * 100))
            ++ [((calculateOrderSplit c).platformRevenue
                  + (calculateOrderSplit c).totalPaystackFee) * 100]).map jsRound := by
      rw [List.map_append, List.map_append, hsh, List.map_map]
      rfl
    have hsumE : (((calculateOrderSplit c).vendorPayouts.map
          (fun p : PayoutCalculation => p.vendorPayout * 100))
        ++ [((calculateOrderSplit c).platformRevenue
              + (calculateOrderSplit c).totalPaystackFee) * 100]).sum
        = 100 * (calculateOrderSplit c).totalAmount := by
      rw [List.sum_append, List.sum_cons, List.sum_nil,
        list_sum_map_mul_right PayoutCalculation.vendorPayout 100, h4]
      have hpr : (calculateOrderSplit c).platformRevenue
          = ((calculateOrderSplit c).vendorPayouts.map PayoutCalculation.platformFee).sum := rfl
      have hta : (calculateOrderSplit c).totalAmount = cartTotal c := rfl
      have hfee : (calculateOrderSplit c).totalPaystackFee
          = cartTotal c * (15 / 1000) + 100 := rfl
      rw [hpr, h2, hta, hfee]
      ring
    have hlen : (((calculateOrderSplit c).vendorPayouts.map
          (fun p : PayoutCalculation => p.vendorPayout * 100))
        ++ [((calculateOrderSplit c).platformRevenue
              + (calculateOrderSplit c).totalPaystackFee) * 100]).length
        = (calculateOrderSplit c).vendorPayouts.length + 1 := by
      rw [List.length_append, List.length_map]
      rfl
    have hb := sum_jsRound_close
      (((calculateOrderSplit c).vendorPayouts.map
          (fun p : PayoutCalculation => p.vendorPayout * 100))
        ++ [((calculateOrderSplit c).platformRevenue
              + (calculateOrderSplit c).totalPaystackFee) * 100])
    rw [hsumE, hlen] at hb
    have hcast : (((calculateOrderSplit c).vendorPayouts.length + 1 : ℕ) : ℚ) / 2
        = (((calculateOrderSplit c).vendorPayouts.length : ℚ) + 1) / 2 := by
      push_cast
      ring
    rw [hcast] at hb
    rw [hmap]
    exact hb

/-- C4 witness: the two-vendor cart satisfies the hypotheses and the rounded
share sum lies within (2+1)/2 kobo of the exact total. -/
theorem C4_witness :
    ∃ subs : List Subaccount,
      generateSubaccountsForSplit (calculateOrderSplit twoVendorCart) = .ok subs ∧
      |((subs.map Subaccount.share).sum : ℚ)
          - 100 * (calculateOrderSplit twoVendorCart).totalAmount|
        ≤ (((calculateOrderSplit twoVendorCart).vendorPayouts.length : ℚ) + 1) / 2 :=
  C4_share_sum_bound twoVendorCart (by decide)
    (by norm_num [cartTotal, twoVendorCart, lineAmount])

/-! ## Claim C5 — empty / zero-total carts are not rejected -/

/-- C5 counterexample: `calculateOrderSplit` on the empty cart does not fail
with `InvalidCart` (the function is total and raises no error): it returns
the degenerate split `⟨0, 0, 100, []⟩`. -/
theorem C5_counterexample :
    calculateOrderSplit [] =
      { totalAmount := 0, platformRevenue := 0, totalPaystackFee := 100,
        vendorPayouts := [] } := by
  simp only [calculateOrderSplit, cartTotal, vendorIds, collectVendorIds,
    List.foldl_nil, List.filterMap_nil, List.map_nil, List.sum_nil]
  norm_num

/-- C5 (amended): `calculateOrderSplit` performs no cart validation: for
every cart with order total zero (in particular the empty cart) it returns an
`OrderSplit` — with `totalAmount = 0` and `totalPaystackFee = 100` (the flat
fee) — instead of failing with `InvalidCart`. -/
theorem C5_no_invalid_cart (c : List CartItem) (h : cartTotal c = 0) :
    (calculateOrderSplit c).totalAmount = 0 ∧
    (calculateOrderSplit c).totalPaystackFee = 100 := by
  have hta : (calculateOrderSplit c).totalAmount = cartTotal c := rfl
  have hfee : (calculateOrderSplit c).totalPaystackFee
      = cartTotal c * (15 / 1000) + 100 := rfl
  rw [hta, hfee, h]
  norm_num

/-- C5 witness: the empty cart has zero total, and the theorem applies. -/
theorem C5_witness :
    (calculateOrderSplit []).totalAmount = 0 ∧
    (calculateOrderSplit []).totalPaystackFee = 100 :=
  C5_no_invalid_cart [] (by norm_num [cartTotal])

/-! ## Claim C6 — unknown vendors are skipped, not rejected -/

/-- C6 counterexample: a cart with a line from unregistered `VENDOR_999`
does not make `calculateOrderSplit` fail with `UnknownVendor`; it produces
exactly the partial result the claim rules out: the unknown vendor's ₦100
is counted in `totalAmount = 300`, but the payout list contains only
`VENDOR_001`, whose sales sum to 200. -/
theorem C6_counterexample :
    (calculateOrderSplit unknownVendorCart).totalAmount = 300 ∧
    ((calculateOrderSplit unknownVendorCart).vendorPayouts.map
        PayoutCalculation.vendorId) = ["VENDOR_001"] ∧
    ((calculateOrderSplit unknownVendorCart).vendorPayouts.map
        PayoutCalculation.totalSales).sum = 200 := by
  refine ⟨?_, ?_, ?_⟩ <;>
    · simp [calculateOrderSplit, cartTotal, unknownVendorCart, lineAmount,
        vendorIds, collectVendorIds, mkPayout, vendors, salesOf, itemsOf]
      try norm_num

/-- C6 (amended): `calculateOrderSplit` silently skips cart lines whose
vendor is absent from the registry: `totalAmount` still counts every line,
while every entry of `vendorPayouts` belongs to a registered vendor — so a
cart with an unknown vendor yields a partial result, not an `UnknownVendor`
error. -/
theorem C6_unknown_vendor_skipped (c : List CartItem) :
    (calculateOrderSplit c).totalAmount = cartTotal c ∧
    ((calculateOrderSplit c).vendorPayouts.all
        (fun p => (vendors.find? (fun v => v.id == p.vendorId)).isSome)) = true := by
  refine ⟨rfl, ?_⟩
  rw [List.all_eq_true]
  intro p hp
  obtain ⟨v, hv⟩ := payout_vendor_found c p hp
  rw [hv]
  rfl

/-! ## Claim C2 — second application of the same payment event -/

/-- C2 counterexample: applying the same successful-payment event
(`eventA`) to the same order at times 1 and then 2, the second application
overwrites `paidAt` with the new timestamp: it is `some 1` after the first
application and `some 2` after the second — not unchanged as claimed. -/
theorem C2_counterexample :
    (getOrderByReference
        (updateOrderPaymentStatus [baseOrder] "REF_1" .paid (some eventA) 1)
        "REF_1").map Order.paidAt = some (some 1) ∧
    (getOrderByReference
        (updateOrderPaymentStatus
          (updateOrderPaymentStatus [baseOrder] "REF_1" .paid (some eventA) 1)
          "REF_1" .paid (some eventA) 2)
        "REF_1").map Order.paidAt = some (some 2) := by
  constructor <;> rfl

/-- The single-step effect of `updateOrderPaymentStatus` on the record the
reference-keyed lookup returns. -/
lemma find?_updateOrderPaymentStatus (orders : List Order) (r : String)
    (st : PaymentStatus) (pd : Option PaymentData) (t : ℕ) :
    (updateOrderPaymentStatus orders r st pd t).find?
        (fun o => o.orderReference == r)
      = (orders.find? (fun o => o.orderReference == r)).map
          (fun o =>
            { o with
              paymentStatus := st
              paymentReference := (pd.bind PaymentData.reference).or o.paymentReference
              paymentDetails := pd
              paidAt := if st = .paid then some t else o.paidAt }) := by
  rw [updateOrderPaymentStatus]
  exact find?_updateFirst (fun o => o.orderReference == r)
    (fun o =>
      { o with
        paymentStatus := st
        paymentReference := (pd.bind PaymentData.reference).or o.paymentReference
        paymentDetails := pd
        paidAt := if st = .paid then some t else o.paidAt })
    (fun o h => h) orders

/-- C2 (amended): re-applying the same successful-payment event leaves
`paymentStatus` (still `paid`) and `paymentReference` unchanged, but
`paidAt` is overwritten with the time of the second application —
`order.paidAt = new Date().toISOString()` runs on every `'paid'` update. -/
theorem C2_second_application (orders : List Order) (r : String)
    (pd : PaymentData) (t₁ t₂ : ℕ)
    (h : (getOrderByReference orders r).isSome) :
    (getOrderByReference
        (updateOrderPaymentStatus
          (updateOrderPaymentStatus orders r .paid (some pd) t₁)
          r .paid (some pd) t₂) r).map Order.paymentStatus
      = (getOrderByReference
          (updateOrderPaymentStatus orders r .paid (some pd) t₁) r).map
            Order.paymentStatus ∧
    (getOrderByReference
        (updateOrderPaymentStatus
          (updateOrderPaymentStatus orders r .paid (some pd) t₁)
          r .paid (some pd) t₂) r).map Order.paymentReference
      = (getOrderByReference
          (updateOrderPaymentStatus orders r .paid (some pd) t₁) r).map
            Order.paymentReference ∧
    (getOrderByReference
        (updateOrderPaymentStatus
          (updateOrderPaymentStatus orders r .paid (some pd) t₁)
          r .paid (some pd) t₂) r).map Order.paidAt = some (some t₂) := by
  obtain ⟨o, ho⟩ := Option.isSome_iff_exists.mp h
  rw [getOrderByReference] at ho
  simp only [getOrderByReference, find?_updateOrderPaymentStatus, ho, Option.map_some]
  cases hr : pd.reference with
  | none => simp [Option.or, hr]
  | some s => simp [Option.or, hr]

/-- C2 witness: concrete instance of the amended behaviour on `baseOrder`
and `eventA` at times 1 and 2. -/
theorem C2_witness :
    (getOrderByReference
        (updateOrderPaymentStatus
          (updateOrderPaymentStatus [baseOrder] "REF_1" .paid (some eventA) 1)
          "REF_1" .paid (some eventA) 2) "REF_1").map Order.paymentStatus
      = (getOrderByReference
          (updateOrderPaymentStatus [baseOrder] "REF_1" .paid (some eventA) 1)
          "REF_1").map Order.paymentStatus ∧
    (getOrderByReference
        (updateOrderPaymentStatus
          (updateOrderPaymentStatus [baseOrder] "REF_1" .paid (some eventA) 1)
          "REF_1" .paid (some eventA) 2) "REF_1").map Order.paymentReference
      = (getOrderByReference
          (updateOrderPaymentStatus [baseOrder] "REF_1" .paid (some eventA) 1)
          "REF_1").map Order.paymentReference ∧
    (getOrderByReference
        (updateOrderPaymentStatus
          (updateOrderPaymentStatus [baseOrder] "REF_1" .paid (some eventA) 1)
          "REF_1" .paid (some eventA) 2) "REF_1").map Order.paidAt
      = some (some 2) :=
  C2_second_application [baseOrder] "REF_1" eventA 1 2 (by decide)

/-! ## Claim C3 — no state-machine monotonicity -/

/-- C3 counterexample: an order in the terminal `delivered` state is moved
back to `pending` by a single `updateOrderPaymentStatus` call — the backward
transition is not rejected. -/
theorem C3_counterexample :
    deliveredOrder.paymentStatus = .delivered ∧
    (getOrderByReference
        (updateOrderPaymentStatus [deliveredOrder] "REF_1" .pending none 5)
        "REF_1").map Order.paymentStatus = some .pending := by
  constructor <;> rfl

/-- C3 (amended): `updateOrderPaymentStatus` validates nothing: whatever
status is requested is stored on the found order, from any current status —
including `pending` on a `delivered` or `failed` order. `completeOrderDelivery`
likewise forces `delivered` from any status (see the C9 theorems). -/
theorem C3_no_backward_protection (orders : List Order) (r : String)
    (st : PaymentStatus) (pd : Option PaymentData) (t : ℕ)
    (h : (getOrderByReference orders r).isSome) :
    (getOrderByReference (updateOrderPaymentStatus orders r st pd t) r).map
        Order.paymentStatus = some st := by
  obtain ⟨o, ho⟩ := Option.isSome_iff_exists.mp h
  rw [getOrderByReference] at ho
  rw [getOrderByReference, find?_updateOrderPaymentStatus, ho]
  rfl

/-- C3 witness: `delivered → pending` is accepted on `deliveredOrder`. -/
theorem C3_witness :
    (getOrderByReference
        (updateOrderPaymentStatus [deliveredOrder] "REF_1" .pending none 5)
        "REF_1").map Order.paymentStatus = some .pending :=
  C3_no_backward_protection [deliveredOrder] "REF_1" .pending none 5 (by decide)

/-! ## Claim C7 — `paymentReference` is not write-once -/

/-- C7 counterexample: `paidOrder` already has `paymentReference = "PSK_A"`;
a later `updateOrderPaymentStatus` whose payment data carries reference
`"PSK_B"` overwrites it (`paymentData?.reference || order.paymentReference`
prefers the incoming value). -/
theorem C7_counterexample :
    paidOrder.paymentReference = some "PSK_A" ∧
    (getOrderByReference
        (updateOrderPaymentStatus [paidOrder] "REF_1" .paid (some eventB) 3)
        "REF_1").map Order.paymentReference = some (some "PSK_B") := by
  constructor <;> rfl

/-- C7 (amended): on every update the stored `paymentReference` becomes the
incoming event's reference whenever the event carries one, and is preserved
only when the event carries none — the old value is never protected. -/
theorem C7_reference_overwritten (orders : List Order) (r : String)
    (st : PaymentStatus) (pd : PaymentData) (t : ℕ)
    (h : (getOrderByReference orders r).isSome) :
    (getOrderByReference (updateOrderPaymentStatus orders r st (some pd) t) r).map
        Order.paymentReference
      = (getOrderByReference orders r).map
          (fun o => pd.reference.or o.paymentReference) := by
  obtain ⟨o, ho⟩ := Option.isSome_iff_exists.mp h
  rw [getOrderByReference] at ho
  simp only [getOrderByReference, find?_updateOrderPaymentStatus, ho, Option.map_some]
  rfl

/-- C7 witness: concrete overwrite of `"PSK_A"` by `eventB`'s `"PSK_B"`. -/
theorem C7_witness :
    (getOrderByReference
        (updateOrderPaymentStatus [paidOrder] "REF_1" .paid (some eventB) 3)
        "REF_1").map Order.paymentReference
      = (getOrderByReference [paidOrder] "REF_1").map
          (fun o => eventB.reference.or o.paymentReference) :=
  C7_reference_overwritten [paidOrder] "REF_1" .paid eventB 3 (by decide)

/-! ## Claim C9 — delivery completion has no precondition -/

/-- C9 counterexample: `completeOrderDelivery` succeeds on an order whose
status is `pending` (not `paid`): it sets `delivered` and `deliveredAt`
instead of rejecting the transition. -/
theorem C9_counterexample :
    baseOrder.paymentStatus = .pending ∧
    (getOrderByReference (completeOrderDelivery [baseOrder] "REF_1" 7) "REF_1").map
        Order.paymentStatus = some .delivered ∧
    (getOrderByReference (completeOrderDelivery [baseOrder] "REF_1" 7) "REF_1").map
        Order.deliveredAt = some (some 7) :=
  ⟨rfl, rfl, rfl⟩

/-- The single-step effect of `completeOrderDelivery` on the record the
reference-keyed lookup returns. -/
lemma find?_completeOrderDelivery (orders : List Order) (r : String) (t : ℕ) :
    (completeOrderDelivery orders r t).find? (fun o => o.orderReference == r)
      = (orders.find? (fun o => o.orderReference == r)).map
          (fun o => { o with deliveredAt := some t, paymentStatus := .delivered }) := by
  rw [completeOrderDelivery]
  exact find?_updateFirst (fun o => o.orderReference == r)
    (fun o => { o with deliveredAt := some t, paymentStatus := .delivered })
    (fun o h => h) orders

/-- C9 (amended): `completeOrderDelivery` checks nothing: for every stored
order it sets `paymentStatus = delivered` and `deliveredAt = now` regardless
of the current status (there is no `InvalidTransition`; only a missing
reference makes it a no-op). -/
theorem C9_complete_delivery_unconditional (orders : List Order) (r : String)
    (t : ℕ) (h : (getOrderByReference orders r).isSome) :
    (getOrderByReference (completeOrderDelivery orders r t) r).map
        Order.paymentStatus = some .delivered ∧
    (getOrderByReference (completeOrderDelivery orders r t) r).map
        Order.deliveredAt = some (some t) := by
  obtain ⟨o, ho⟩ := Option.isSome_iff_exists.mp h
  rw [getOrderByReference] at ho
  constructor <;>
    · rw [getOrderByReference, find?_completeOrderDelivery, ho]
      rfl

/-- C9 witness: completion from `pending` on `baseOrder`. -/
theorem C9_witness :
    (getOrderByReference (completeOrderDelivery [baseOrder] "REF_1" 7) "REF_1").map
        Order.paymentStatus = some .delivered ∧
    (getOrderByReference (completeOrderDelivery [baseOrder] "REF_1" 7) "REF_1").map
        Order.deliveredAt = some (some 7) :=
  C9_complete_delivery_unconditional [baseOrder] "REF_1" 7 (by decide)

/-! ## Claim C10 — duplicate references shadow the later order -/

/-- C10: `createOrder` never rejects or deduplicates a duplicate
`orderReference`: it appends the new record; thereafter every
reference-keyed operation finds (`getOrderByReference`) or mutates
(`updateOrderPaymentStatus`, `completeOrderDelivery`,
`updateOrderDeliveryStatus`) only the earliest-created match, leaving the
appended duplicate untouched and unreachable through the reference-keyed
interface. -/
theorem C10_duplicate_reference_shadowing (orders : List Order) (d : OrderData)
    (t : ℕ)
    (h : (orders.find? (fun o => o.orderReference == d.orderReference)).isSome) :
    (createOrder orders d t).1 = orders ++ [mkOrder d t] ∧
    getOrderByReference (createOrder orders d t).1 d.orderReference
      = getOrderByReference orders d.orderReference ∧
    (∀ (st : PaymentStatus) (pd : Option PaymentData) (t' : ℕ),
      updateOrderPaymentStatus (createOrder orders d t).1 d.orderReference st pd t'
        = updateOrderPaymentStatus orders d.orderReference st pd t' ++ [mkOrder d t]) ∧
    (∀ t' : ℕ,
      completeOrderDelivery (createOrder orders d t).1 d.orderReference t'
        = completeOrderDelivery orders d.orderReference t' ++ [mkOrder d t]) ∧
    (∀ rid tid : Option String,
      updateOrderDeliveryStatus (createOrder orders d t).1 d.orderReference rid tid
        = updateOrderDeliveryStatus orders d.orderReference rid tid ++ [mkOrder d t]) := by
  refine ⟨rfl, getOrderByReference_append orders [mkOrder d t] d.orderReference h,
    ?_, ?_, ?_⟩
  · intro st pd t'
    simp only [createOrder, updateOrderPaymentStatus]
    exact updateFirst_append_left _ _ orders [mkOrder d t] h
  · intro t'
    simp only [createOrder, completeOrderDelivery]
    exact updateFirst_append_left _ _ orders [mkOrder d t] h
  · intro rid tid
    simp only [createOrder, updateOrderDeliveryStatus]
    exact updateFirst_append_left _ _ orders [mkOrder d t] h

/-- C10 witness: duplicating `baseOrder`'s reference `"REF_1"` at time 50. -/
theorem C10_witness :
    (createOrder [baseOrder] dupOrderData 50).1
        = [baseOrder] ++ [mkOrder dupOrderData 50] ∧
    getOrderByReference (createOrder [baseOrder] dupOrderData 50).1
        dupOrderData.orderReference
      = getOrderByReference [baseOrder] dupOrderData.orderReference ∧
    (∀ (st : PaymentStatus) (pd : Option PaymentData) (t' : ℕ),
      updateOrderPaymentStatus (createOrder [baseOrder] dupOrderData 50).1
          dupOrderData.orderReference st pd t'
        = updateOrderPaymentStatus [baseOrder] dupOrderData.orderReference st pd t'
            ++ [mkOrder dupOrderData 50]) ∧
    (∀ t' : ℕ,
      completeOrderDelivery (createOrder [baseOrder] dupOrderData 50).1
          dupOrderData.orderReference t'
        = completeOrderDelivery [baseOrder] dupOrderData.orderReference t'
            ++ [mkOrder dupOrderData 50]) ∧
    (∀ rid tid : Option String,
      updateOrderDeliveryStatus (createOrder [baseOrder] dupOrderData 50).1
          dupOrderData.orderReference rid tid
        = updateOrderDeliveryStatus [baseOrder] dupOrderData.orderReference rid tid
            ++ [mkOrder dupOrderData 50]) :=
  C10_duplicate_reference_shadowing [baseOrder] dupOrderData 50 (by decide)

/-! ## Claim C8 — unresolved events are dropped without effect -/

/-- C8: when the notification carries no metadata order reference, its
gateway reference equals no stored order's `paymentReference`, and its
(email, amount) pair matches zero or at least two stored orders, the
`handleChargeSuccess` reconciliation returns the store unchanged: no order
is mutated, none is created, and the handler returns normally (the embedded
function is total — the code path ends in `return` after logging). -/
theorem C8_unresolved_dropped (orders : List Order) (pd : PaymentData) (t : ℕ)
    (h1 : pd.metadataOrderReference = none)
    (h2 : ∀ o ∈ orders, o.paymentReference ≠ pd.reference)
    (h3 : ∀ email, pd.customerEmail = some email →
        (orders.filter (fun o =>
            o.customerEmail == email && o.amount == pd.amount / 100)).length ≠ 1) :
    handleChargeSuccess orders pd t = orders := by
  have hfind : orders.find? (fun o => o.paymentReference == pd.reference) = none := by
    rw [List.find?_eq_none]
    intro o ho
    simp only [beq_iff_eq]
    exact h2 o ho
  have hres : resolveOrder orders pd = none := by
    cases hem : pd.customerEmail with
    | none => simp [resolveOrder, h1, hfind, hem]
    | some email =>
        have hlen := h3 email hem
        simp [resolveOrder, h1, hfind, hem, hlen]
  rw [handleChargeSuccess, hres]

/-- C8 witness: `ambiguousEvent` against the two-candidate store
`[orderX1, orderX2]` (both share the email and the ₦1000 amount) leaves the
store unchanged. -/
theorem C8_witness :
    handleChargeSuccess [orderX1, orderX2] ambiguousEvent 9 = [orderX1, orderX2] :=
  C8_unresolved_dropped [orderX1, orderX2] ambiguousEvent 9 rfl (by decide)
    (by
      intro email hem
      simp only [ambiguousEvent] at hem
      rw [Option.some_inj] at hem
      subst hem
      norm_num [orderX1, orderX2, baseOrder, ambiguousEvent, List.filter])

end Grundy
